import Mathlib

/-!
Shallow embedding of the real-time transit feed ingestion and merge layer of
the cleanride repository, together with proofs of its specified properties.

Sources embedded:
- src/cleanride_next/src/lib/mtaApi.js (feed registry, feed router, decoder
  boundary, fetcher with cache, arrival extractor, synthetic arrival
  generator, destination and color tables, getTrainArrivals)
- src/cleanride_next/src/app/api/station/[stationId]/route.js (the
  schedule/realtime merge: combine, deduplicate, sort, filter to future)

Modelling conventions:
- Timestamps are epoch seconds as natural numbers. The source stores arrival
  times as ISO-8601 strings produced from epoch-second values and compares
  them through Date parsing, which is order- and difference-preserving, so
  the 120000 ms dedup threshold becomes 120 s and the 30000 ms cache
  freshness threshold becomes 30 s.
- JavaScript strings are Lean String values. The JS operations split,
  includes and endsWith are reimplemented over the underlying character
  lists so that they compute inside the kernel.
- Protobuf-decoded messages (gtfs-realtime-bindings) expose missing scalar
  fields as defaults: missing strings are the empty string, missing numbers
  are 0, missing booleans are false, and missing sub-messages are absent
  (Option). Truthiness checks in the source become the corresponding
  default-value checks.
- Math.random() draws are modelled by an explicit stream of natural draws
  (a function from draw index to Nat), reduced at each call site by the
  modulus the source applies: floor(random to k) becomes draw mod k, and a
  probability-p comparison becomes a condition on draw mod 10.
- Network transport and protobuf decoding are external effects; they enter
  as function parameters returning Except, and the cache is passed and
  returned explicitly.
-/

/-! ## JavaScript string helpers -/

/-- JS String.prototype.split with a one-character separator, on char lists. -/
def splitOnOneChar (sep : Char) : List Char → List (List Char)
  | [] => [[]]
  | c :: rest =>
    if c = sep then [] :: splitOnOneChar sep rest
    else
      match splitOnOneChar sep rest with
      | [] => [[c]]
      | h :: t => (c :: h) :: t

/-- JS String.prototype.split with a two-character separator, on char lists;
non-overlapping, left to right. -/
def splitOnTwoChars (a b : Char) : List Char → List (List Char)
  | [] => [[]]
  | [c] => [[c]]
  | c :: d :: rest =>
    if c = a ∧ d = b then
      [] :: splitOnTwoChars a b rest
    else
      match splitOnTwoChars a b (d :: rest) with
      | [] => [[c]]
      | h :: t => (c :: h) :: t

/-- JS s.split("..") as used on trip ids. -/
def jsSplitDotDot (s : String) : List String :=
  (splitOnTwoChars '.' '.' s.data).map String.mk

/-- JS s.split("/") as used on NYCT train ids. -/
def jsSplitSlash (s : String) : List String :=
  (splitOnOneChar '/' s.data).map String.mk

/-- JS s.includes(".."): true exactly when the split produces more than one part. -/
def jsIncludesDotDot (s : String) : Bool :=
  (splitOnTwoChars '.' '.' s.data).length > 1

/-- JS s.endsWith(c) for a single character c. -/
def jsEndsWithChar (s : String) (c : Char) : Bool :=
  s.data.getLast? == some c

/-! ## Decoded GTFS-realtime data model

Shapes of the protobuf messages as decoded by gtfs-realtime-bindings and
consumed by mtaApi.js. -/

/-- Arrival event inside a stop-time update: predicted time (epoch seconds,
0 when absent) and signed delay in seconds (0 when absent). -/
structure StopTimeEvent where
  time : Nat
  delay : Int
deriving DecidableEq, Repr

/-- One stop-level event in a trip update: direction-qualified stop id and
optional arrival event. -/
structure StopTimeUpdate where
  stop_id : String
  arrival : Option StopTimeEvent
deriving DecidableEq, Repr

/-- NYCT vendor extension on a trip descriptor. Missing train_id decodes to
the empty string; missing is_assigned decodes to false. -/
structure NyctTripDescriptor where
  train_id : String
  is_assigned : Bool
deriving DecidableEq, Repr

/-- GTFS-realtime trip descriptor with the optional NYCT extension
(trip.extensions.nyct_trip_descriptor in the source). -/
structure TripDescriptor where
  trip_id : String
  route_id : String
  nyct : Option NyctTripDescriptor
deriving DecidableEq, Repr

/-- A trip update: optional trip descriptor plus its stop-time updates. -/
structure TripUpdate where
  trip : Option TripDescriptor
  stop_time_update : List StopTimeUpdate
deriving DecidableEq, Repr

/-- One feed entity, optionally carrying a trip update. -/
structure FeedEntity where
  trip_update : Option TripUpdate
deriving DecidableEq, Repr

/-- Feed header: timestamp in epoch seconds. -/
structure FeedHeader where
  timestamp : Nat
deriving DecidableEq, Repr

/-- Structured result of decoding one feed payload. -/
structure DecodedFeed where
  header : FeedHeader
  entity : List FeedEntity
deriving DecidableEq, Repr

/-- The normalized arrival record built by the extractor and by the synthetic
generator in mtaApi.js. The mock generator does not set a direction field,
so direction is optional. arrivalTime is epoch seconds. -/
structure NormalizedArrival where
  id : String
  line : String
  direction : Option String
  destination : String
  arrivalTime : Nat
  delay : Int
  isRealtime : Bool
  isAssigned : Bool
  color : String
  trainId : String
deriving DecidableEq, Repr

/-- A station record from the gtfs_processed_stations collection, restricted
to the fields getTrainArrivals reads. -/
structure Station where
  id : String
  name : String
  lines : List String
deriving DecidableEq, Repr

/-- Return shape of getTrainArrivals: arrivals plus station info. -/
structure TrainArrivalsResult where
  arrivals : List NormalizedArrival
  station : Station
deriving DecidableEq, Repr

/-! ## mtaApi.js: registry and tables -/

/-- MTA_FEEDS: feed id, lines served, url path segment (mtaApi.js lines 10-43). -/
def MTA_FEEDS : List (String × List String × String) :=
  [("IRT", (["1", "2", "3", "4", "5", "6", "7", "S", "GS"], "gtfs")),
   ("ACE", (["A", "C", "E", "H"], "gtfs-ace")),
   ("NQRW", (["N", "Q", "R", "W"], "gtfs-nqrw")),
   ("BDFM", (["B", "D", "F", "M", "FS"], "gtfs-bdfm")),
   ("L", (["L"], "gtfs-l")),
   ("G", (["G"], "gtfs-g")),
   ("JZ", (["J", "Z"], "gtfs-jz")),
   ("SIR", (["SI", "SIR"], "gtfs-si"))]

/-- lineColors table in mtaApi.js (lines 46-58). -/
def lineColors : List (String × String) :=
  [("1", "#EE352E"), ("2", "#EE352E"), ("3", "#EE352E"),
   ("4", "#00933C"), ("5", "#00933C"), ("6", "#00933C"),
   ("7", "#B933AD"),
   ("A", "#2850AD"), ("C", "#2850AD"), ("E", "#2850AD"), ("H", "#2850AD"),
   ("B", "#FF6319"), ("D", "#FF6319"), ("F", "#FF6319"), ("M", "#FF6319"),
   ("G", "#6CBE45"),
   ("J", "#996633"), ("Z", "#996633"),
   ("L", "#A7A9AC"),
   ("N", "#FCCC0A"), ("Q", "#FCCC0A"), ("R", "#FCCC0A"), ("W", "#FCCC0A"),
   ("S", "#808183"), ("GS", "#808183"),
   ("SI", "#2850AD")]

/-- getRelevantFeeds (mtaApi.js lines 71-90): map a stations lines to the
feed ids whose line sets include one of them; fall back to the whole
registry when the input is empty or nothing matched. -/
def getRelevantFeeds (stationLines : List String) : List String :=
  if stationLines.isEmpty then MTA_FEEDS.map Prod.fst
  else
    let feedIds := stationLines.foldl (fun acc line =>
      MTA_FEEDS.foldl (fun acc2 p =>
        if p.2.1.contains line && !(acc2.contains p.1) then acc2 ++ [p.1]
        else acc2) acc) []
    if feedIds.isEmpty then MTA_FEEDS.map Prod.fst else feedIds

/-- formatStopId (mtaApi.js lines 97-99). -/
def formatStopId (stationId : String) (direction : String) : String :=
  stationId ++ (if direction == "NORTH" then "N" else "S")

/-- The empty DecodedFeed produced on decode failure, transport failure and
mock short-circuit: header timestamp now, no entities. -/
def emptyFeed (now : Nat) : DecodedFeed :=
  { header := { timestamp := now }, entity := [] }

/-- parseGtfsRealtimeFeed (mtaApi.js lines 106-113): decode the payload,
converting any decode error into an empty feed stamped with the current
time. The protobuf decoder itself is external and enters as a parameter. -/
def parseGtfsRealtimeFeed (decode : List Nat → Except String DecodedFeed)
    (now : Nat) (buffer : List Nat) : DecodedFeed :=
  match decode buffer with
  | .ok feed => feed
  | .error _ => emptyFeed now

/-- getNyctTripDescriptor (mtaApi.js lines 120-129): read the NYCT extension
off a trip descriptor, none when absent. -/
def getNyctTripDescriptor (trip : TripDescriptor) : Option NyctTripDescriptor :=
  trip.nyct

/-! ## mtaApi.js: fetcher with cache -/

/-- The url path for a feed id: MTA_FEEDS lookup with gtfs as default
(mtaApi.js line 150). -/
def feedUrl (feedId : String) : String :=
  ((MTA_FEEDS.lookup feedId).map Prod.snd).getD "gtfs"

/-- Result of one fetchMtaFeed call: the feed returned to the caller, the
cache after the call, and whether the upstream transport was invoked. -/
structure FetchOutcome where
  feed : DecodedFeed
  cache : List (String × DecodedFeed × Nat)
  networkAttempted : Bool
deriving DecidableEq, Repr

/-- The cache-miss continuation of fetchMtaFeed (mtaApi.js lines 144-177):
mock short-circuit, else transport plus decode, caching on success and
degrading to an empty feed on transport error. -/
def fetchMtaFeedFresh (useMockData : Bool)
    (transport : String → Except String (List Nat))
    (decode : List Nat → Except String DecodedFeed)
    (cache : List (String × DecodedFeed × Nat)) (now : Nat)
    (feedId : String) : FetchOutcome :=
  if useMockData then
    { feed := emptyFeed now, cache := cache, networkAttempted := false }
  else
    match transport (feedUrl feedId) with
    | .ok bytes =>
      let feed := parseGtfsRealtimeFeed decode now bytes
      { feed := feed,
        cache := (feedId, feed, now) :: cache.filter (fun p => p.1 ≠ feedId),
        networkAttempted := true }
    | .error _ =>
      { feed := emptyFeed now, cache := cache, networkAttempted := true }

/-- fetchMtaFeed (mtaApi.js lines 136-178): serve from the cache when the
entry is younger than 30 seconds, otherwise fall through to the fresh
fetch path. -/
def fetchMtaFeed (useMockData : Bool)
    (transport : String → Except String (List Nat))
    (decode : List Nat → Except String DecodedFeed)
    (cache : List (String × DecodedFeed × Nat)) (now : Nat)
    (feedId : String) : FetchOutcome :=
  match cache.lookup feedId with
  | some (cachedFeed, ts) =>
    if now - ts < 30 then
      { feed := cachedFeed, cache := cache, networkAttempted := false }
    else fetchMtaFeedFresh useMockData transport decode cache now feedId
  | none => fetchMtaFeedFresh useMockData transport decode cache now feedId

/-! ## mtaApi.js: destination tables -/

/-- The known-destination table inside getDestinationName (mtaApi.js
lines 362-401), without the DEFAULT entry, which the lookup fallback models. -/
def destinationNames : List (String × String) :=
  [("TSQ", "Times Square"), ("GCT", "Grand Central"),
   ("14S", "14 St"), ("34S", "34 St"),
   ("SFC", "South Ferry"), ("WTC", "World Trade Center"),
   ("ATL", "Atlantic Av"), ("CIY", "Coney Island"),
   ("BBR", "Brighton Beach"), ("FHL", "Flatbush Av"),
   ("UST", "Utica Av"), ("NLT", "New Lots Av"),
   ("ENY", "East New York"),
   ("WPK", "Wakefield"), ("WOD", "Woodlawn"),
   ("PBP", "Pelham Bay Park"), ("ECD", "Eastchester"),
   ("FLS", "Flushing"), ("JAM", "Jamaica Center"),
   ("179", "179 St Jamaica"),
   ("Van Cortlandt Park", "Van Cortlandt Park"),
   ("South Ferry", "South Ferry"),
   ("Wakefield", "Wakefield"),
   ("Flatbush Av", "Flatbush Av"),
   ("Harlem", "Harlem"),
   ("New Lots Av", "New Lots Av")]

/-- getDestinationName: table lookup falling back to the raw code. -/
def getDestinationName (destination : String) : String :=
  (destinationNames.lookup destination).getD destination

/-- The per-line candidate destinations inside getRandomDestination
(mtaApi.js lines 408-433). -/
def lineDestinations : List (String × List String) :=
  [("1", ["Van Cortlandt Park", "South Ferry"]),
   ("2", ["Wakefield", "Flatbush Av"]),
   ("3", ["Harlem", "New Lots Av"]),
   ("4", ["WOD", "UST", "NLT"]),
   ("5", ["ECD", "FHL"]),
   ("6", ["PBP", "BBR"]),
   ("7", ["FLS", "34S"]),
   ("A", ["207", "FAR", "RPK"]),
   ("C", ["168", "EUC"]),
   ("E", ["JAM", "WTC"]),
   ("B", ["BPK", "BBR"]),
   ("D", ["NWD", "CIY"]),
   ("F", ["179", "CIY"]),
   ("M", ["71A", "MET"]),
   ("G", ["CTQ", "CHA"]),
   ("J", ["JAM", "BRS"]),
   ("Z", ["JAM", "BRS"]),
   ("L", ["CAN", "8AV"]),
   ("N", ["AST", "CIY"]),
   ("Q", ["96S", "CIY"]),
   ("R", ["71A", "BAY"]),
   ("W", ["AST", "WHS"]),
   ("S", ["TSQ", "GCT"]),
   ("SI", ["STG", "TOT"])]

/-- getRandomDestination (mtaApi.js lines 407-437): pick a random candidate
for the line, falling back to UNK for unknown lines. The random index is
the supplied draw reduced modulo the candidate count. -/
def getRandomDestination (draw : Nat) (line : String) : String :=
  let lds := (lineDestinations.lookup line).getD ["UNK"]
  lds.getD (draw % lds.length) "UNK"

/-! ## mtaApi.js: synthetic arrival generator -/

/-- One synthetic arrival for a line (body of the inner for loop of
generateMockArrivals, mtaApi.js lines 326-348). k is the index of the next
unconsumed random draw; the returned index accounts for the draws used,
including the conditional delay draw. -/
def mockArrival (rng : Nat → Nat) (now : Nat) (line : String) (k : Nat) :
    NormalizedArrival × Nat :=
  let minutesFromNow := rng k % 30 + 2
  let arrivalTime := now + minutesFromNow * 60
  let (delayMinutes, k1) :=
    if rng (k + 1) % 10 < 3 then (rng (k + 2) % 5 + 1, k + 3) else (0, k + 2)
  let tripId := line ++ "_" ++ toString (rng k1 % 100000)
  ({ id := tripId,
     line := line,
     direction := none,
     destination := getDestinationName (getRandomDestination (rng (k1 + 1)) line),
     arrivalTime := arrivalTime,
     delay := (delayMinutes : Int) * 60,
     isRealtime := true,
     isAssigned := rng (k1 + 2) % 10 ≥ 2,
     color := (lineColors.lookup line).getD "#808183",
     trainId := "0 " ++ line ++ toString (rng (k1 + 3) % 10000) },
   k1 + 4)

/-- The inner for loop of generateMockArrivals: n synthetic arrivals for one
line, threading the draw index. -/
def mockArrivalsForLine (rng : Nat → Nat) (now : Nat) (line : String) :
    Nat → Nat → List NormalizedArrival × Nat
  | 0, k => ([], k)
  | n + 1, k =>
    let ak := mockArrival rng now line k
    let rest := mockArrivalsForLine rng now line n ak.2
    (ak.1 :: rest.1, rest.2)

/-- The outer forEach of generateMockArrivals: for each line draw a count of
2 to 5 and generate that many arrivals. -/
def mockArrivalsAux (rng : Nat → Nat) (now : Nat) :
    List String → Nat → List NormalizedArrival
  | [], _ => []
  | line :: rest, k =>
    let numArrivals := rng k % 4 + 2
    let asK := mockArrivalsForLine rng now line numArrivals (k + 1)
    asK.1 ++ mockArrivalsAux rng now rest asK.2

/-- The arrival sort used at mtaApi.js lines 293-294 and 352: stable sort by
arrival timestamp, as JS Array.prototype.sort with the Date comparator. -/
def sortByArrival (l : List NormalizedArrival) : List NormalizedArrival :=
  l.mergeSort (fun a b => a.arrivalTime ≤ b.arrivalTime)

/-- generateMockArrivals (mtaApi.js lines 314-355). -/
def generateMockArrivals (rng : Nat → Nat) (now : Nat) (station : Station) :
    List NormalizedArrival :=
  let lines := station.lines
  if lines.isEmpty then []
  else sortByArrival (mockArrivalsAux rng now lines 0)

/-! ## mtaApi.js: arrival extractor -/

/-- Processing of one stop-time update inside the extraction loop of
getTrainArrivals (mtaApi.js lines 235-278): emit at most one normalized
arrival, when the stop id matches a direction-qualified form of the station
id and the predicted arrival is nonzero and strictly in the future. -/
def extractFromUpdate (now : Nat) (stationId : String) (trip : TripDescriptor)
    (u : StopTimeUpdate) : List NormalizedArrival :=
  let northStopId := formatStopId stationId "NORTH"
  let southStopId := formatStopId stationId "SOUTH"
  if u.stop_id == northStopId || u.stop_id == southStopId then
    let nyctTrip := getNyctTripDescriptor trip
    let arrivalTime := (u.arrival.map StopTimeEvent.time).getD 0
    if arrivalTime ≠ 0 ∧ now < arrivalTime then
      let direction := if jsEndsWithChar u.stop_id 'N' then "NORTH" else "SOUTH"
      let routeId := trip.route_id
      let destination :=
        if trip.trip_id ≠ "" ∧ jsIncludesDotDot trip.trip_id then
          match (jsSplitDotDot trip.trip_id).get? 1 with
          | some s => if s = "" then "Unknown" else s
          | none => "Unknown"
        else
          match nyctTrip with
          | some n =>
            if n.train_id ≠ "" then
              let trainIdParts := jsSplitSlash n.train_id
              if trainIdParts.length > 1 then trainIdParts.getD 1 "Unknown"
              else "Unknown"
            else "Unknown"
          | none => "Unknown"
      [{ id := trip.trip_id,
         line := routeId,
         direction := some direction,
         destination := getDestinationName destination,
         arrivalTime := arrivalTime,
         delay := (u.arrival.map StopTimeEvent.delay).getD 0,
         isRealtime := true,
         isAssigned := (nyctTrip.map NyctTripDescriptor.is_assigned).getD false,
         color := (lineColors.lookup routeId).getD "#808183",
         trainId :=
           match nyctTrip with
           | some n => if n.train_id ≠ "" then n.train_id else trip.trip_id
           | none => trip.trip_id }]
    else []
  else []

/-- Processing of one feed entity (mtaApi.js lines 224-279): skip entities
without a trip update or without a trip descriptor. -/
def extractFromEntity (now : Nat) (stationId : String) (e : FeedEntity) :
    List NormalizedArrival :=
  match e.trip_update with
  | none => []
  | some tu =>
    match tu.trip with
    | none => []
    | some trip => tu.stop_time_update.flatMap (extractFromUpdate now stationId trip)

/-- The full extraction loop over all fetched feeds (mtaApi.js lines 222-281). -/
def extractArrivals (feeds : List DecodedFeed) (stationId : String) (now : Nat) :
    List NormalizedArrival :=
  feeds.flatMap (fun feed => feed.entity.flatMap (extractFromEntity now stationId))

/-- getTrainArrivals (mtaApi.js lines 185-308), with the database, the
resolved per-feed fetch results, the mock flag, the draw stream and the
clock passed explicitly. An unknown station id yields an empty arrival list
with a placeholder station record; a known station yields either mock data
(mock flag set), or extracted real-time arrivals with mock fallback when
extraction finds none; the result is sorted by arrival time. -/
def getTrainArrivals (db : List Station) (fetch : String → DecodedFeed)
    (useMockData : Bool) (rng : Nat → Nat) (now : Nat) (stationId : String) :
    TrainArrivalsResult :=
  match db.find? (fun st => st.id == stationId) with
  | none =>
    { arrivals := [],
      station := { id := stationId, name := "Unknown Station", lines := [] } }
  | some station =>
    let relevantFeeds := getRelevantFeeds station.lines
    let arrivals :=
      if useMockData then generateMockArrivals rng now station
      else
        let feeds := relevantFeeds.map fetch
        let extracted := extractArrivals feeds stationId now
        if extracted.isEmpty then generateMockArrivals rng now station
        else extracted
    { arrivals := sortByArrival arrivals,
      station := { id := stationId, name := station.name, lines := station.lines } }

/-! ## route.js: schedule/realtime merge -/

/-- A scheduled departure as returned by getStationSchedule, restricted to
the fields the merge reads. arrival_timestamp is epoch seconds; a missing
route_color is the empty string. -/
structure ScheduledDeparture where
  trip_id : String
  route_short_name : String
  headsign : String
  arrival_timestamp : Nat
  route_color : String
deriving DecidableEq, Repr

/-- One entry of the combined arrival list built in route.js. Realtime
entries carry a rating and a train id; schedule-derived entries carry
neither. -/
structure MergedEntry where
  id : String
  line : String
  destination : String
  arrivalTime : Nat
  currentRating : Option Nat
  color : String
  delay : Int
  isRealtime : Bool
  trainId : Option String
deriving DecidableEq, Repr

/-- The lineColors copy inside route.js getLineColor (route.js lines 204-220). -/
def routeLineColors : List (String × String) :=
  [("1", "#EE352E"), ("2", "#EE352E"), ("3", "#EE352E"),
   ("4", "#00933C"), ("5", "#00933C"), ("6", "#00933C"),
   ("7", "#B933AD"),
   ("A", "#2850AD"), ("C", "#2850AD"), ("E", "#2850AD"), ("H", "#2850AD"),
   ("B", "#FF6319"), ("D", "#FF6319"), ("F", "#FF6319"), ("M", "#FF6319"),
   ("G", "#6CBE45"),
   ("J", "#996633"), ("Z", "#996633"),
   ("L", "#A7A9AC"),
   ("N", "#FCCC0A"), ("Q", "#FCCC0A"), ("R", "#FCCC0A"), ("W", "#FCCC0A"),
   ("S", "#808183"), ("GS", "#808183"),
   ("SI", "#2850AD")]

/-- getLineColor (route.js lines 204-220). -/
def getLineColor (line : String) : String :=
  (routeLineColors.lookup line).getD "#808183"

/-- The realtime mapping in route.js lines 108-123: each arrival from
getTrainArrivals becomes a combined-list entry with isRealtime true and a
rating defaulting to 5 (a zero stored rating is falsy in JS and also
defaults). ratingOf is the Train collection lookup by trip id. -/
def toRealtimeEntry (ratingOf : String → Option Nat) (train : NormalizedArrival) :
    MergedEntry :=
  { id := train.id,
    line := train.line,
    destination := train.destination,
    arrivalTime := train.arrivalTime,
    currentRating := some (match ratingOf train.id with
      | some r => if r = 0 then 5 else r
      | none => 5),
    color := train.color,
    delay := train.delay,
    isRealtime := true,
    trainId := some (if train.trainId = "" then train.id else train.trainId) }

/-- The dedup test of the merge (route.js lines 137-140): a realtime arrival
on the same line within 120 seconds. -/
def hasRealtimeEquivalent (rts : List MergedEntry) (scheduled : ScheduledDeparture) :
    Bool :=
  rts.any (fun rt => rt.line == scheduled.route_short_name &&
    ((rt.arrivalTime : Int) - (scheduled.arrival_timestamp : Int)).natAbs < 120)

/-- Conversion of a kept scheduled departure into a combined-list entry
(route.js lines 143-151): realtime flag false, delay zero, color falling
back to the line color when the stored route color is absent. -/
def scheduledToEntry (scheduled : ScheduledDeparture) : MergedEntry :=
  { id := scheduled.trip_id,
    line := scheduled.route_short_name,
    destination := scheduled.headsign,
    arrivalTime := scheduled.arrival_timestamp,
    currentRating := none,
    color := if scheduled.route_color ≠ "" then scheduled.route_color
             else getLineColor scheduled.route_short_name,
    delay := 0,
    isRealtime := false,
    trainId := none }

/-- The combine and dedup stage (route.js lines 132-153): all realtime
entries, then every scheduled departure with no realtime equivalent. -/
def combineArrivals (rts : List MergedEntry) (scheds : List ScheduledDeparture) :
    List MergedEntry :=
  rts ++ (scheds.filter (fun s => !(hasRealtimeEquivalent rts s))).map scheduledToEntry

/-- The combined-list sort (route.js line 156): stable sort by arrival time. -/
def sortEntries (l : List MergedEntry) : List MergedEntry :=
  l.mergeSort (fun a b => a.arrivalTime ≤ b.arrivalTime)

/-- The full merge (route.js lines 132-162): combine, dedup, sort, and drop
entries whose arrival time is not strictly in the future. -/
def mergeArrivals (rts : List MergedEntry) (scheds : List ScheduledDeparture)
    (now : Nat) : List MergedEntry :=
  (sortEntries (combineArrivals rts scheds)).filter (fun e => now < e.arrivalTime)


/-! ## Helper lemmas -/

theorem mem_feedFold (line : String) (L : List (String × List String × String))
    (acc : List String) (fid : String) :
    (fid ∈ L.foldl (fun acc2 p =>
        if p.2.1.contains line && !(acc2.contains p.1) then acc2 ++ [p.1]
        else acc2) acc) ↔
      fid ∈ acc ∨ ∃ p ∈ L, p.1 = fid ∧ line ∈ p.2.1 := by
  induction L generalizing acc with
  | nil => simp
  | cons q rest ih =>
    simp only [List.foldl_cons]
    rw [ih, List.exists_mem_cons_iff]
    by_cases hq : line ∈ q.2.1
    · by_cases ha : q.1 ∈ acc
      · have hc : (q.2.1.contains line && !(acc.contains q.1)) = false := by
          simp [List.contains, List.elem_iff, ha]
        rw [hc]
        simp only [Bool.false_eq_true, if_false]
        constructor
        · rintro (h | h)
          · exact Or.inl h
          · exact Or.inr (Or.inr h)
        · rintro (h | ⟨hfid, _⟩ | h)
          · exact Or.inl h
          · exact Or.inl (hfid ▸ ha)
          · exact Or.inr h
      · have hc : (q.2.1.contains line && !(acc.contains q.1)) = true := by
          simp [List.contains, List.elem_iff, ha, hq]
        rw [hc]
        simp only [if_true, List.mem_append, List.mem_singleton]
        constructor
        · rintro (⟨h | h⟩ | h)
          · exact Or.inl h
          · exact Or.inr (Or.inl ⟨h.symm, hq⟩)
          · exact Or.inr (Or.inr h)
        · rintro (h | ⟨hfid, _⟩ | h)
          · exact Or.inl (Or.inl h)
          · exact Or.inl (Or.inr hfid.symm)
          · exact Or.inr h
    · have hc : (q.2.1.contains line && !(acc.contains q.1)) = false := by
        simp [List.contains, List.elem_iff, hq]
      rw [hc]
      simp only [Bool.false_eq_true, if_false]
      constructor
      · rintro (h | h)
        · exact Or.inl h
        · exact Or.inr (Or.inr h)
      · rintro (h | ⟨_, hmem⟩ | h)
        · exact Or.inl h
        · exact absurd hmem hq
        · exact Or.inr h

theorem mem_lineFold (LS : List String) (acc : List String) (fid : String) :
    (fid ∈ LS.foldl (fun acc line =>
        MTA_FEEDS.foldl (fun acc2 p =>
          if p.2.1.contains line && !(acc2.contains p.1) then acc2 ++ [p.1]
          else acc2) acc) acc) ↔
      fid ∈ acc ∨ ∃ l ∈ LS, ∃ p ∈ MTA_FEEDS, p.1 = fid ∧ l ∈ p.2.1 := by
  induction LS generalizing acc with
  | nil => simp
  | cons l rest ih =>
    simp only [List.foldl_cons]
    rw [ih, mem_feedFold, List.exists_mem_cons_iff]
    constructor
    · rintro ((h | h) | h)
      · exact Or.inl h
      · exact Or.inr (Or.inl h)
      · exact Or.inr (Or.inr h)
    · rintro (h | h | h)
      · exact Or.inl (Or.inl h)
      · exact Or.inl (Or.inr h)
      · exact Or.inr h

/-- C7: the registry has exactly the 8 feed ids; an empty line set, or a line
set meeting no feed (unknown lines included), routes to the full registry;
otherwise the router returns exactly the feed ids whose serviced-line set
intersects the input. -/
theorem getRelevantFeeds_spec (stationLines : List String) :
    MTA_FEEDS.map Prod.fst = ["IRT", "ACE", "NQRW", "BDFM", "L", "G", "JZ", "SIR"] ∧
    (stationLines = [] → getRelevantFeeds stationLines = MTA_FEEDS.map Prod.fst) ∧
    ((¬ ∃ l ∈ stationLines, ∃ p ∈ MTA_FEEDS, l ∈ p.2.1) →
      getRelevantFeeds stationLines = MTA_FEEDS.map Prod.fst) ∧
    ((∃ l ∈ stationLines, ∃ p ∈ MTA_FEEDS, l ∈ p.2.1) →
      ∀ fid, fid ∈ getRelevantFeeds stationLines ↔
        ∃ p ∈ MTA_FEEDS, p.1 = fid ∧ ∃ l ∈ stationLines, l ∈ p.2.1) := by
  refine ⟨by decide, ?_, ?_, ?_⟩
  · rintro rfl
    rfl
  · intro hno
    by_cases he : stationLines.isEmpty
    · unfold getRelevantFeeds
      simp [he]
    · unfold getRelevantFeeds
      simp only [he, Bool.false_eq_true, if_false]
      split
      · rfl
      · rename_i hne
        exfalso
        rcases List.exists_mem_of_ne_nil _ (by
          intro hnil
          rw [List.isEmpty_iff] at hne
          exact hne hnil) with ⟨fid, hfid⟩
        rw [mem_lineFold] at hfid
        rcases hfid with h | ⟨l, hl, p, hp, _, hlp⟩
        · exact absurd h (List.not_mem_nil fid)
        · exact hno ⟨l, hl, p, hp, hlp⟩
  · rintro ⟨l0, hl0, p0, hp0, hlp0⟩ fid
    have hne : stationLines.isEmpty = false := by
      cases stationLines with
      | nil => cases hl0
      | cons a b => rfl
    have hmem : p0.1 ∈ stationLines.foldl (fun acc line =>
        MTA_FEEDS.foldl (fun acc2 p =>
          if p.2.1.contains line && !(acc2.contains p.1) then acc2 ++ [p.1]
          else acc2) acc) [] := by
      rw [mem_lineFold]
      exact Or.inr ⟨l0, hl0, p0, hp0, rfl, hlp0⟩
    unfold getRelevantFeeds
    simp only [hne, Bool.false_eq_true, if_false]
    split
    · rename_i hemp
      exfalso
      rw [List.isEmpty_iff] at hemp
      rw [hemp] at hmem
      exact List.not_mem_nil _ hmem
    · rw [mem_lineFold]
      simp only [List.not_mem_nil, false_or]
      constructor
      · rintro ⟨l, hl, p, hp, hfid, hlp⟩
        exact ⟨p, hp, hfid, l, hl, hlp⟩
      · rintro ⟨p, hp, hfid, l, hl, hlp⟩
        exact ⟨l, hl, p, hp, hfid, hlp⟩

/-- C7 witness: concrete instantiations of the router specification. -/
theorem getRelevantFeeds_spec_witness :
    getRelevantFeeds [] = MTA_FEEDS.map Prod.fst ∧
    getRelevantFeeds ["X9"] = MTA_FEEDS.map Prod.fst ∧
    ("IRT" ∈ getRelevantFeeds ["6"] ↔
      ∃ p ∈ MTA_FEEDS, p.1 = "IRT" ∧ ∃ l ∈ ["6"], l ∈ p.2.1) := by
  refine ⟨(getRelevantFeeds_spec []).2.1 rfl, ?_, ?_⟩
  · refine (getRelevantFeeds_spec ["X9"]).2.2.1 ?_
    rintro ⟨l, hl, p, hp, hlp⟩
    rcases List.mem_singleton.mp hl with rfl
    fin_cases hp <;> simp_all
  · exact (getRelevantFeeds_spec ["6"]).2.2.2
      ⟨"6", List.mem_singleton.mpr rfl,
        ("IRT", (["1", "2", "3", "4", "5", "6", "7", "S", "GS"], "gtfs")),
        by decide, by decide⟩ "IRT"

/-- C2: the feed decoder is a total function; on any structural decode
failure it returns the empty DecodedFeed with a synthesized header
timestamp, so no decode error crosses the decoder boundary. -/
theorem parseGtfsRealtimeFeed_absorbs_errors
    (decode : List Nat → Except String DecodedFeed) (now : Nat)
    (buffer : List Nat) (e : String) (h : decode buffer = .error e) :
    parseGtfsRealtimeFeed decode now buffer = emptyFeed now ∧
    (parseGtfsRealtimeFeed decode now buffer).entity = [] ∧
    (parseGtfsRealtimeFeed decode now buffer).header.timestamp = now := by
  simp [parseGtfsRealtimeFeed, h, emptyFeed]

/-- C2 witness: a concrete malformed buffer with a concretely failing
decoder yields the empty feed stamped 7. -/
theorem parseGtfsRealtimeFeed_absorbs_errors_witness :
    parseGtfsRealtimeFeed (fun _ => Except.error "malformed") 7 [0, 255, 3] =
      emptyFeed 7 ∧
    (parseGtfsRealtimeFeed (fun _ => Except.error "malformed") 7 [0, 255, 3]).entity
      = [] ∧
    (parseGtfsRealtimeFeed (fun _ => Except.error "malformed") 7
      [0, 255, 3]).header.timestamp = 7 :=
  parseGtfsRealtimeFeed_absorbs_errors (fun _ => Except.error "malformed") 7
    [0, 255, 3] "malformed" rfl

unseal List.mergeSort List.merge

/-- C3 counterexample: with the mock flag set but a fresh cache entry
present for the feed id, fetchMtaFeed returns the cached feed, which is not
the empty feed, refuting the for-every-prior-cache-state claim. -/
theorem fetchMtaFeed_mock_cached_counterexample :
    (fetchMtaFeed true (fun _ => Except.error "offline")
      (fun _ => Except.error "offline")
      [("IRT", ({ header := { timestamp := 50 },
                  entity := [{ trip_update := none }] }, 100))]
      100 "IRT").feed ≠ emptyFeed 100 ∧
    (fetchMtaFeed true (fun _ => Except.error "offline")
      (fun _ => Except.error "offline")
      [("IRT", ({ header := { timestamp := 50 },
                  entity := [{ trip_update := none }] }, 100))]
      100 "IRT").feed.entity ≠ [] := by
  constructor <;> decide

/-- C3 amended: with the mock flag set, fetchMtaFeed never attempts the
network for any feed id and any prior cache state; it returns the empty
DecodedFeed stamped now whenever no fresh (younger than 30 s) cache entry
exists for the id, and returns the cached feed when a fresh entry exists. -/
theorem fetchMtaFeed_mock_no_network
    (transport : String → Except String (List Nat))
    (decode : List Nat → Except String DecodedFeed)
    (cache : List (String × DecodedFeed × Nat)) (now : Nat) (feedId : String) :
    (fetchMtaFeed true transport decode cache now feedId).networkAttempted = false ∧
    ((∀ feedTs : DecodedFeed × Nat,
        cache.lookup feedId = some feedTs → ¬ (now - feedTs.2 < 30)) →
      fetchMtaFeed true transport decode cache now feedId =
        { feed := emptyFeed now, cache := cache, networkAttempted := false }) ∧
    (∀ feedTs : DecodedFeed × Nat,
      cache.lookup feedId = some feedTs → now - feedTs.2 < 30 →
      (fetchMtaFeed true transport decode cache now feedId).feed = feedTs.1) := by
  refine ⟨?_, ?_, ?_⟩
  · unfold fetchMtaFeed fetchMtaFeedFresh
    cases h : cache.lookup feedId with
    | none => simp
    | some feedTs =>
      rcases feedTs with ⟨f, ts⟩
      by_cases hts : now - ts < 30 <;> simp [hts]
  · intro hstale
    unfold fetchMtaFeed fetchMtaFeedFresh
    cases h : cache.lookup feedId with
    | none => simp
    | some feedTs =>
      rcases feedTs with ⟨f, ts⟩
      have := hstale (f, ts) h
      simp only [this, if_false]
      simp
  · intro feedTs h hfresh
    unfold fetchMtaFeed
    rcases feedTs with ⟨f, ts⟩
    simp only [h]
    simp [hfresh]

/-- C3 amended witness: with an empty cache the mock fetch returns the empty
feed without a network attempt; with a fresh cached entry it returns that
entry, still without a network attempt. -/
theorem fetchMtaFeed_mock_no_network_witness :
    (fetchMtaFeed true (fun _ => Except.error "offline")
      (fun _ => Except.error "offline") [] 100 "IRT").networkAttempted = false ∧
    fetchMtaFeed true (fun _ => Except.error "offline")
      (fun _ => Except.error "offline") [] 100 "IRT" =
      { feed := emptyFeed 100, cache := [], networkAttempted := false } ∧
    (fetchMtaFeed true (fun _ => Except.error "offline")
      (fun _ => Except.error "offline")
      [("IRT", ({ header := { timestamp := 50 },
                  entity := [{ trip_update := none }] }, 100))]
      100 "IRT").feed =
      { header := { timestamp := 50 }, entity := [{ trip_update := none }] } := by
  refine ⟨(fetchMtaFeed_mock_no_network _ _ [] 100 "IRT").1, ?_, ?_⟩
  · exact (fetchMtaFeed_mock_no_network _ _ [] 100 "IRT").2.1
      (by intro ft h; simp [List.lookup] at h)
  · exact (fetchMtaFeed_mock_no_network _ _ _ 100 "IRT").2.2
      ({ header := { timestamp := 50 }, entity := [{ trip_update := none }] }, 100)
      (by decide) (by decide)

/-- C4 counterexample: for an unknown station id, getTrainArrivals returns a
normal-shaped result, byte-for-byte identical to the result for a database
whose station record happens to be named Unknown Station with no lines, so
no explicit not-found condition is surfaced to the caller. -/
theorem getTrainArrivals_not_found_counterexample :
    getTrainArrivals [] (fun _ => emptyFeed 0) false (fun _ => 0) 100 "X1" =
      getTrainArrivals
        [{ id := "X1", name := "Unknown Station", lines := [] }]
        (fun _ => emptyFeed 0) false (fun _ => 0) 100 "X1" ∧
    getTrainArrivals [] (fun _ => emptyFeed 0) false (fun _ => 0) 100 "X1" =
      { arrivals := [],
        station := { id := "X1", name := "Unknown Station", lines := [] } } := by
  constructor <;> decide

/-- C4 amended: for every station id with no matching database record,
getTrainArrivals returns a non-error result with an empty arrival list and
a placeholder station record (name Unknown Station, no lines); the
not-found condition is not an error that propagates out of the core. -/
theorem getTrainArrivals_unknown_station (db : List Station)
    (fetch : String → DecodedFeed) (useMockData : Bool) (rng : Nat → Nat)
    (now : Nat) (stationId : String)
    (h : db.find? (fun st => st.id == stationId) = none) :
    getTrainArrivals db fetch useMockData rng now stationId =
      { arrivals := [],
        station := { id := stationId, name := "Unknown Station", lines := [] } } := by
  unfold getTrainArrivals
  rw [h]

/-- C4 amended witness: the unknown-station result at a concrete empty
database. -/
theorem getTrainArrivals_unknown_station_witness :
    getTrainArrivals [] (fun _ => emptyFeed 0) false (fun _ => 0) 100 "X1" =
      { arrivals := [],
        station := { id := "X1", name := "Unknown Station", lines := [] } } :=
  getTrainArrivals_unknown_station [] (fun _ => emptyFeed 0) false (fun _ => 0)
    100 "X1" rfl

theorem sortByArrival_sorted (l : List NormalizedArrival) :
    List.Sorted (fun a b : NormalizedArrival => a.arrivalTime ≤ b.arrivalTime)
      (sortByArrival l) := by
  have h := @List.sorted_mergeSort NormalizedArrival
    (fun a b : NormalizedArrival => decide (a.arrivalTime ≤ b.arrivalTime))
    (fun a b c h1 h2 => by
      simp only [decide_eq_true_eq] at h1 h2 ⊢
      exact le_trans h1 h2)
    (fun a b => by
      rcases Nat.le_total a.arrivalTime b.arrivalTime with h | h <;> simp [h]) l
  exact h.imp (fun hab => by simpa using hab)

theorem extractFromUpdate_future (now : Nat) (sid : String)
    (trip : TripDescriptor) (u : StopTimeUpdate) :
    ∀ a ∈ extractFromUpdate now sid trip u, now < a.arrivalTime := by
  intro a ha
  simp only [extractFromUpdate] at ha
  by_cases h1 : (u.stop_id == formatStopId sid "NORTH"
      || u.stop_id == formatStopId sid "SOUTH") = true
  · rw [if_pos h1] at ha
    by_cases h2 : (Option.map StopTimeEvent.time u.arrival).getD 0 ≠ 0 ∧
        now < (Option.map StopTimeEvent.time u.arrival).getD 0
    · rw [if_pos h2] at ha
      rcases List.mem_singleton.mp ha with rfl
      exact h2.2
    · rw [if_neg h2] at ha
      exact absurd ha (List.not_mem_nil a)
  · rw [if_neg h1] at ha
    exact absurd ha (List.not_mem_nil a)

theorem extractArrivals_future (feeds : List DecodedFeed) (sid : String)
    (now : Nat) : ∀ a ∈ extractArrivals feeds sid now, now < a.arrivalTime := by
  intro a ha
  unfold extractArrivals at ha
  rw [List.mem_flatMap] at ha
  obtain ⟨feed, _, ha⟩ := ha
  rw [List.mem_flatMap] at ha
  obtain ⟨ent, _, ha⟩ := ha
  cases htu : ent.trip_update with
  | none => simp [extractFromEntity, htu] at ha
  | some tup =>
    cases htr : tup.trip with
    | none => simp [extractFromEntity, htu, htr] at ha
    | some trip =>
      simp only [extractFromEntity, htu, htr, List.mem_flatMap] at ha
      obtain ⟨u, _, ha⟩ := ha
      exact extractFromUpdate_future now sid trip u a ha

/-- C5: every arrival the extractor emits has its arrival timestamp strictly
greater than the extraction-time clock reading, and a stop-time update whose
predicted arrival time is at or before that reading produces no output. -/
theorem extractor_emits_only_future (feeds : List DecodedFeed) (sid : String)
    (now : Nat) :
    (∀ a ∈ extractArrivals feeds sid now, now < a.arrivalTime) ∧
    (∀ (trip : TripDescriptor) (u : StopTimeUpdate),
      (Option.map StopTimeEvent.time u.arrival).getD 0 ≤ now →
      extractFromUpdate now sid trip u = []) := by
  refine ⟨extractArrivals_future feeds sid now, ?_⟩
  intro trip u hle
  simp only [extractFromUpdate]
  by_cases h1 : (u.stop_id == formatStopId sid "NORTH"
      || u.stop_id == formatStopId sid "SOUTH") = true
  · rw [if_pos h1, if_neg (fun hg => absurd hg.2 (not_lt.mpr hle))]
  · rw [if_neg h1]

/-- C5 witness: a concrete feed with a future stop-time update yields an
arrival strictly after the clock reading, and a concrete past update yields
nothing. -/
theorem extractor_emits_only_future_witness :
    (100 : Nat) <
      (NormalizedArrival.mk "T..PBP" "6" (some "NORTH") "Pelham Bay Park" 500 0
        true false "#00933C" "T..PBP").arrivalTime ∧
    extractFromUpdate 100 "635"
      { trip_id := "T..PBP", route_id := "6", nyct := none }
      { stop_id := "635S", arrival := some { time := 50, delay := 0 } } = [] := by
  constructor
  · exact (extractor_emits_only_future
      [⟨⟨400⟩, [⟨some ⟨some ⟨"T..PBP", "6", none⟩, [⟨"635N", some ⟨500, 0⟩⟩]⟩⟩]⟩]
      "635" 100).1 _ (by decide)
  · exact (extractor_emits_only_future [] "635" 100).2
      { trip_id := "T..PBP", route_id := "6", nyct := none }
      { stop_id := "635S", arrival := some { time := 50, delay := 0 } }
      (by decide)

/-- C6: for every input (hence every ordering of stop-time updates), the
sorted extractor output, and the arrival list getTrainArrivals returns, are
sorted ascending by arrival timestamp. -/
theorem extractor_output_sorted (feeds : List DecodedFeed) (sid : String)
    (now : Nat) (db : List Station) (fetch : String → DecodedFeed)
    (useMockData : Bool) (rng : Nat → Nat) :
    List.Sorted (fun a b : NormalizedArrival => a.arrivalTime ≤ b.arrivalTime)
      (sortByArrival (extractArrivals feeds sid now)) ∧
    List.Sorted (fun a b : NormalizedArrival => a.arrivalTime ≤ b.arrivalTime)
      ((getTrainArrivals db fetch useMockData rng now sid).arrivals) := by
  constructor
  · exact sortByArrival_sorted _
  · unfold getTrainArrivals
    cases h : db.find? (fun st => st.id == sid) with
    | none => simp
    | some st => exact sortByArrival_sorted _

theorem hasRealtimeEquivalent_iff (rts : List MergedEntry) (s : ScheduledDeparture) :
    hasRealtimeEquivalent rts s = true ↔
      ∃ rt ∈ rts, rt.line = s.route_short_name ∧
        ((rt.arrivalTime : Int) - (s.arrival_timestamp : Int)).natAbs < 120 := by
  simp [hasRealtimeEquivalent]

/-- C1: the combine stage keeps a scheduled departure exactly when no
realtime arrival for the same line lies within 120 seconds of the scheduled
time; concretely, a realtime line-6 arrival at 2000 merged with a scheduled
line-6 departure at 2090 (90 seconds later) produces exactly the one
realtime entry. -/
theorem merge_dedup_spec (rts : List MergedEntry)
    (scheds : List ScheduledDeparture) (s : ScheduledDeparture)
    (hs : s ∈ scheds)
    (huniq : ∀ s2 ∈ scheds, s2.trip_id = s.trip_id → s2 = s)
    (hnotrt : scheduledToEntry s ∉ rts) :
    (scheduledToEntry s ∈ combineArrivals rts scheds ↔
      ¬ ∃ rt ∈ rts, rt.line = s.route_short_name ∧
        ((rt.arrivalTime : Int) - (s.arrival_timestamp : Int)).natAbs < 120) ∧
    mergeArrivals
      [⟨"rt6", "6", "Pelham Bay Park", 2000, some 5, "#00933C", 0, true, some "rt6"⟩]
      [⟨"sched6", "6", "Pelham Bay Park", 2090, "#00933C"⟩] 1000 =
      [⟨"rt6", "6", "Pelham Bay Park", 2000, some 5, "#00933C", 0, true, some "rt6"⟩] := by
  constructor
  · unfold combineArrivals
    rw [List.mem_append]
    constructor
    · rintro (h | h)
      · exact absurd h hnotrt
      · rw [List.mem_map] at h
        obtain ⟨s2, hs2, heq⟩ := h
        rw [List.mem_filter] at hs2
        have hid : s2.trip_id = s.trip_id := congrArg MergedEntry.id heq
        have hss : s2 = s := huniq s2 hs2.1 hid
        subst hss
        intro hex
        rw [← hasRealtimeEquivalent_iff] at hex
        rw [Bool.not_eq_true'] at hs2
        rw [hs2.2] at hex
        cases hex
    · intro hnex
      refine Or.inr (List.mem_map.mpr ⟨s, List.mem_filter.mpr ⟨hs, ?_⟩, rfl⟩)
      cases hb : hasRealtimeEquivalent rts s with
      | false => simp [hb]
      | true => exact absurd ((hasRealtimeEquivalent_iff rts s).mp hb) hnex
  · decide

/-- C1 witness: the dedup characterization at a concrete realtime list and
scheduled departure, with the hypotheses discharged concretely. -/
theorem merge_dedup_spec_witness :
    (scheduledToEntry ⟨"sched6", "6", "Pelham Bay Park", 2090, "#00933C"⟩ ∈
      combineArrivals
        [⟨"rt6", "6", "Pelham Bay Park", 2000, some 5, "#00933C", 0, true, some "rt6"⟩]
        [⟨"sched6", "6", "Pelham Bay Park", 2090, "#00933C"⟩] ↔
      ¬ ∃ rt ∈
        ([⟨"rt6", "6", "Pelham Bay Park", 2000, some 5, "#00933C", 0, true,
          some "rt6"⟩] : List MergedEntry),
        rt.line = "6" ∧
        ((rt.arrivalTime : Int) - ((2090 : Nat) : Int)).natAbs < 120) ∧
    mergeArrivals
      [⟨"rt6", "6", "Pelham Bay Park", 2000, some 5, "#00933C", 0, true, some "rt6"⟩]
      [⟨"sched6", "6", "Pelham Bay Park", 2090, "#00933C"⟩] 1000 =
      [⟨"rt6", "6", "Pelham Bay Park", 2000, some 5, "#00933C", 0, true, some "rt6"⟩] :=
  merge_dedup_spec
    [⟨"rt6", "6", "Pelham Bay Park", 2000, some 5, "#00933C", 0, true, some "rt6"⟩]
    [⟨"sched6", "6", "Pelham Bay Park", 2090, "#00933C"⟩]
    ⟨"sched6", "6", "Pelham Bay Park", 2090, "#00933C"⟩
    (by decide) (by decide) (by decide)

/-- C8: merging an already-merged list (all entries strictly in the future,
sorted ascending by arrival time) with an empty scheduled list at the same
merge time returns the same list in the same order. -/
theorem merge_idempotent (rts : List MergedEntry) (now : Nat)
    (hsorted : List.Sorted
      (fun a b : MergedEntry => a.arrivalTime ≤ b.arrivalTime) rts)
    (hfuture : ∀ e ∈ rts, now < e.arrivalTime) :
    mergeArrivals rts [] now = rts := by
  have h1 : List.Pairwise
      (fun a b : MergedEntry => (decide (a.arrivalTime ≤ b.arrivalTime)) = true)
      rts := hsorted.imp (fun h => decide_eq_true h)
  unfold mergeArrivals combineArrivals sortEntries
  simp only [List.filter_nil, List.map_nil, List.append_nil]
  rw [List.mergeSort_of_sorted h1]
  exact List.filter_eq_self.mpr (fun a ha => decide_eq_true (hfuture a ha))

/-- C8 witness: a concrete sorted future list is returned unchanged by the
merge with an empty scheduled list. -/
theorem merge_idempotent_witness :
    mergeArrivals
      [⟨"a", "1", "South Ferry", 100, some 5, "#EE352E", 0, true, some "a"⟩,
       ⟨"b", "2", "Wakefield", 200, none, "#EE352E", 0, false, none⟩] [] 10 =
      [⟨"a", "1", "South Ferry", 100, some 5, "#EE352E", 0, true, some "a"⟩,
       ⟨"b", "2", "Wakefield", 200, none, "#EE352E", 0, false, none⟩] :=
  merge_idempotent
    [⟨"a", "1", "South Ferry", 100, some 5, "#EE352E", 0, true, some "a"⟩,
     ⟨"b", "2", "Wakefield", 200, none, "#EE352E", 0, false, none⟩] 10
    (by decide) (by decide)

theorem mockArrival_fields (rng : Nat → Nat) (now : Nat) (line : String)
    (k : Nat) :
    (mockArrival rng now line k).1.line = line ∧
    (mockArrival rng now line k).1.isRealtime = true ∧
    now + 120 ≤ (mockArrival rng now line k).1.arrivalTime ∧
    (mockArrival rng now line k).1.arrivalTime ≤ now + 1920 := by
  have hm : rng k % 30 < 30 := Nat.mod_lt _ (by norm_num)
  unfold mockArrival
  by_cases h : rng (k + 1) % 10 < 3 <;>
    simp only [h, if_true, if_false] <;>
    refine ⟨by trivial, by trivial, ?_, ?_⟩ <;> omega

theorem mockArrivalsForLine_spec (rng : Nat → Nat) (now : Nat) (line : String) :
    ∀ (n k : Nat),
      (mockArrivalsForLine rng now line n k).1.length = n ∧
      ∀ a ∈ (mockArrivalsForLine rng now line n k).1,
        a.line = line ∧ a.isRealtime = true ∧
        now + 120 ≤ a.arrivalTime ∧ a.arrivalTime ≤ now + 1920 := by
  intro n
  induction n with
  | zero => intro k; simp [mockArrivalsForLine]
  | succ m ih =>
    intro k
    unfold mockArrivalsForLine
    refine ⟨by simp [(ih _).1], ?_⟩
    intro a ha
    rcases List.mem_cons.mp ha with rfl | hmem
    · obtain ⟨h1, h2, h3, h4⟩ := mockArrival_fields rng now line k
      exact ⟨h1, h2, h3, h4⟩
    · exact (ih _).2 a hmem

theorem mockArrivalsAux_mem (rng : Nat → Nat) (now : Nat) :
    ∀ (lines : List String) (k : Nat), ∀ a ∈ mockArrivalsAux rng now lines k,
      a.line ∈ lines ∧ a.isRealtime = true ∧
      now + 120 ≤ a.arrivalTime ∧ a.arrivalTime ≤ now + 1920 := by
  intro lines
  induction lines with
  | nil => intro k a ha; simp [mockArrivalsAux] at ha
  | cons line rest ih =>
    intro k a ha
    unfold mockArrivalsAux at ha
    rcases List.mem_append.mp ha with hmem | hmem
    · obtain ⟨h1, h2, h3, h4⟩ := (mockArrivalsForLine_spec rng now line _ _).2 a hmem
      exact ⟨h1 ▸ List.mem_cons_self line rest, h2, h3, h4⟩
    · obtain ⟨h1, h2, h3, h4⟩ := ih _ a hmem
      exact ⟨List.mem_cons_of_mem line h1, h2, h3, h4⟩

theorem mockArrivalsAux_length (rng : Nat → Nat) (now : Nat) :
    ∀ (lines : List String) (k : Nat),
      2 * lines.length ≤ (mockArrivalsAux rng now lines k).length ∧
      (mockArrivalsAux rng now lines k).length ≤ 5 * lines.length := by
  intro lines
  induction lines with
  | nil => intro k; simp [mockArrivalsAux]
  | cons line rest ih =>
    intro k
    have hm : rng k % 4 < 4 := Nat.mod_lt _ (by norm_num)
    unfold mockArrivalsAux
    rw [List.length_append, (mockArrivalsForLine_spec rng now line _ _).1]
    have := ih (mockArrivalsForLine rng now line (rng k % 4 + 2) (k + 1)).2
    simp only [List.length_cons]
    omega

theorem mockArrivalsAux_countP_zero (rng : Nat → Nat) (now : Nat) (l : String)
    (lines : List String) (k : Nat) (hl : l ∉ lines) :
    (mockArrivalsAux rng now lines k).countP (fun a => a.line == l) = 0 := by
  rw [List.countP_eq_zero]
  intro a ha
  have := (mockArrivalsAux_mem rng now lines k a ha).1
  simp only [beq_iff_eq]
  intro heq
  exact hl (heq ▸ this)

theorem mockArrivalsAux_countP (rng : Nat → Nat) (now : Nat) (l : String) :
    ∀ (lines : List String) (k : Nat), lines.Nodup → l ∈ lines →
      2 ≤ (mockArrivalsAux rng now lines k).countP (fun a => a.line == l) ∧
      (mockArrivalsAux rng now lines k).countP (fun a => a.line == l) ≤ 5 := by
  intro lines
  induction lines with
  | nil => intro k _ hl; cases hl
  | cons line rest ih =>
    intro k hnd hl
    have hm : rng k % 4 < 4 := Nat.mod_lt _ (by norm_num)
    unfold mockArrivalsAux
    rw [List.countP_append]
    rcases List.mem_cons.mp hl with rfl | hlrest
    · have hblock : (mockArrivalsForLine rng now l (rng k % 4 + 2) (k + 1)).1.countP
          (fun a => a.line == l) =
          (mockArrivalsForLine rng now l (rng k % 4 + 2) (k + 1)).1.length := by
        rw [List.countP_eq_length]
        intro a ha
        simp [((mockArrivalsForLine_spec rng now l _ _).2 a ha).1]
      have hrest : (mockArrivalsAux rng now rest
          (mockArrivalsForLine rng now l (rng k % 4 + 2) (k + 1)).2).countP
          (fun a => a.line == l) = 0 :=
        mockArrivalsAux_countP_zero rng now l rest _ (List.nodup_cons.mp hnd).1
      rw [hblock, hrest, (mockArrivalsForLine_spec rng now l _ _).1]
      omega
    · have hne : line ≠ l := by
        rintro rfl
        exact (List.nodup_cons.mp hnd).1 hlrest
      have hblock : (mockArrivalsForLine rng now line (rng k % 4 + 2) (k + 1)).1.countP
          (fun a => a.line == l) = 0 := by
        rw [List.countP_eq_zero]
        intro a ha
        have := ((mockArrivalsForLine_spec rng now line _ _).2 a ha).1
        simp only [beq_iff_eq]
        intro heq
        exact hne (this ▸ heq)
      rw [hblock]
      have := ih (mockArrivalsForLine rng now line (rng k % 4 + 2) (k + 1)).2
        (List.nodup_cons.mp hnd).2 hlrest
      omega

theorem sortByArrival_perm (l : List NormalizedArrival) :
    (sortByArrival l).Perm l :=
  List.mergeSort_perm l _

/-- C9: for every draw stream, every station gets between 2 and 5 synthetic
arrivals per served line, each with arrival time between 2 and 32 minutes
in the future and a line drawn from the stations lines; for the
["1", "2", "3"] scenario the total count lies between 4 and 15. -/
theorem generateMockArrivals_spec (rng : Nat → Nat) (now : Nat) (st : Station) :
    (∀ a ∈ generateMockArrivals rng now st,
      now + 120 ≤ a.arrivalTime ∧ a.arrivalTime ≤ now + 32 * 60 ∧
      a.line ∈ st.lines) ∧
    (st.lines.Nodup → ∀ l ∈ st.lines,
      2 ≤ (generateMockArrivals rng now st).countP (fun a => a.line == l) ∧
      (generateMockArrivals rng now st).countP (fun a => a.line == l) ≤ 5) ∧
    (st.lines = ["1", "2", "3"] →
      4 ≤ (generateMockArrivals rng now st).length ∧
      (generateMockArrivals rng now st).length ≤ 15) := by
  by_cases he : st.lines.isEmpty
  · have hnil : st.lines = [] := List.isEmpty_iff.mp he
    refine ⟨?_, ?_, ?_⟩
    · intro a ha
      simp only [generateMockArrivals, he, if_true] at ha
      cases ha
    · intro _ l hl
      rw [hnil] at hl
      cases hl
    · intro h3
      rw [h3] at hnil
      cases hnil
  · have hgen : generateMockArrivals rng now st =
        sortByArrival (mockArrivalsAux rng now st.lines 0) := by
      simp only [generateMockArrivals, he, Bool.false_eq_true, if_false]
    have hperm := sortByArrival_perm (mockArrivalsAux rng now st.lines 0)
    refine ⟨?_, ?_, ?_⟩
    · intro a ha
      rw [hgen] at ha
      have hmem := hperm.mem_iff.mp ha
      obtain ⟨h1, h2, h3, h4⟩ := mockArrivalsAux_mem rng now st.lines 0 a hmem
      exact ⟨h3, by omega, h1⟩
    · intro hnd l hl
      rw [hgen, List.Perm.countP_eq _ hperm]
      exact mockArrivalsAux_countP rng now l st.lines 0 hnd hl
    · intro h3
      rw [hgen, hperm.length_eq, h3]
      have hlen := mockArrivalsAux_length rng now ["1", "2", "3"] 0
      simp only [List.length_cons, List.length_nil] at hlen
      omega

/-- C9 witness: the per-line and scenario bounds at a concrete draw stream,
station and clock, with the membership and Nodup hypotheses discharged
concretely. -/
theorem generateMockArrivals_spec_witness :
    (1000 + 120 ≤ (NormalizedArrival.mk "1_0" "1" none "Van Cortlandt Park"
        1120 60 true false "#EE352E" "0 10").arrivalTime ∧
      (NormalizedArrival.mk "1_0" "1" none "Van Cortlandt Park"
        1120 60 true false "#EE352E" "0 10").arrivalTime ≤ 1000 + 32 * 60 ∧
      (NormalizedArrival.mk "1_0" "1" none "Van Cortlandt Park"
        1120 60 true false "#EE352E" "0 10").line ∈
        (Station.mk "127" "Station127" ["1", "2", "3"]).lines) ∧
    (2 ≤ (generateMockArrivals (fun _ => 0) 1000
        ⟨"127", "Station127", ["1", "2", "3"]⟩).countP (fun a => a.line == "1") ∧
      (generateMockArrivals (fun _ => 0) 1000
        ⟨"127", "Station127", ["1", "2", "3"]⟩).countP (fun a => a.line == "1") ≤ 5) ∧
    (4 ≤ (generateMockArrivals (fun _ => 0) 1000
        ⟨"127", "Station127", ["1", "2", "3"]⟩).length ∧
      (generateMockArrivals (fun _ => 0) 1000
        ⟨"127", "Station127", ["1", "2", "3"]⟩).length ≤ 15) :=
  ⟨(generateMockArrivals_spec (fun _ => 0) 1000
      ⟨"127", "Station127", ["1", "2", "3"]⟩).1 _ (by decide),
   (generateMockArrivals_spec (fun _ => 0) 1000
      ⟨"127", "Station127", ["1", "2", "3"]⟩).2.1 (by decide) "1" (by decide),
   (generateMockArrivals_spec (fun _ => 0) 1000
      ⟨"127", "Station127", ["1", "2", "3"]⟩).2.2 rfl⟩

theorem extractFromUpdate_realtime (now : Nat) (sid : String)
    (trip : TripDescriptor) (u : StopTimeUpdate) :
    ∀ a ∈ extractFromUpdate now sid trip u, a.isRealtime = true := by
  intro a ha
  simp only [extractFromUpdate] at ha
  by_cases h1 : (u.stop_id == formatStopId sid "NORTH"
      || u.stop_id == formatStopId sid "SOUTH") = true
  · rw [if_pos h1] at ha
    by_cases h2 : (Option.map StopTimeEvent.time u.arrival).getD 0 ≠ 0 ∧
        now < (Option.map StopTimeEvent.time u.arrival).getD 0
    · rw [if_pos h2] at ha
      rcases List.mem_singleton.mp ha with rfl
      rfl
    · rw [if_neg h2] at ha
      exact absurd ha (List.not_mem_nil a)
  · rw [if_neg h1] at ha
    exact absurd ha (List.not_mem_nil a)

theorem extractArrivals_realtime (feeds : List DecodedFeed) (sid : String)
    (now : Nat) : ∀ a ∈ extractArrivals feeds sid now, a.isRealtime = true := by
  intro a ha
  unfold extractArrivals at ha
  rw [List.mem_flatMap] at ha
  obtain ⟨feed, _, ha⟩ := ha
  rw [List.mem_flatMap] at ha
  obtain ⟨ent, _, ha⟩ := ha
  cases htu : ent.trip_update with
  | none => simp [extractFromEntity, htu] at ha
  | some tup =>
    cases htr : tup.trip with
    | none => simp [extractFromEntity, htu, htr] at ha
    | some trip =>
      simp only [extractFromEntity, htu, htr, List.mem_flatMap] at ha
      obtain ⟨u, _, ha⟩ := ha
      exact extractFromUpdate_realtime now sid trip u a ha

theorem mem_of_mem_mergeArrivals (rts : List MergedEntry)
    (scheds : List ScheduledDeparture) (now : Nat) (e : MergedEntry)
    (he : e ∈ mergeArrivals rts scheds now) :
    e ∈ rts ∨ e ∈ scheds.map scheduledToEntry := by
  unfold mergeArrivals sortEntries at he
  have h1 : e ∈ combineArrivals rts scheds :=
    (List.mergeSort_perm _ _).mem_iff.mp (List.mem_of_mem_filter he)
  unfold combineArrivals at h1
  rcases List.mem_append.mp h1 with h | h
  · exact Or.inl h
  · right
    rw [List.mem_map] at h ⊢
    obtain ⟨s, hs, heq⟩ := h
    exact ⟨s, (List.mem_filter.mp hs).1, heq⟩

/-- C10: every synthetic arrival and every extracted realtime arrival carry
the realtime flag true, so the merged output exposes no field separating
them; in the merged list an entry with the flag false can only be
schedule-derived, and one with the flag true can only come from the
realtime input. -/
theorem realtime_flag_partition :
    (∀ (rng : Nat → Nat) (now : Nat) (st : Station),
      ∀ a ∈ generateMockArrivals rng now st, a.isRealtime = true) ∧
    (∀ (feeds : List DecodedFeed) (sid : String) (now : Nat),
      ∀ a ∈ extractArrivals feeds sid now, a.isRealtime = true) ∧
    (∀ (ratingOf : String → Option Nat) (trains : List NormalizedArrival)
      (scheds : List ScheduledDeparture) (now : Nat),
      ∀ e ∈ mergeArrivals (trains.map (toRealtimeEntry ratingOf)) scheds now,
        (e.isRealtime = true → e ∈ trains.map (toRealtimeEntry ratingOf)) ∧
        (e.isRealtime = false → e ∈ scheds.map scheduledToEntry)) := by
  refine ⟨?_, ?_, ?_⟩
  · intro rng now st a ha
    by_cases he : st.lines.isEmpty
    · simp only [generateMockArrivals, he, if_true] at ha
      cases ha
    · have hgen : generateMockArrivals rng now st =
          sortByArrival (mockArrivalsAux rng now st.lines 0) := by
        simp only [generateMockArrivals, he, Bool.false_eq_true, if_false]
      rw [hgen] at ha
      exact (mockArrivalsAux_mem rng now st.lines 0 a
        ((sortByArrival_perm _).mem_iff.mp ha)).2.1
  · exact extractArrivals_realtime
  · intro ratingOf trains scheds now e he
    rcases mem_of_mem_mergeArrivals _ _ _ _ he with h | h
    · refine ⟨fun _ => h, fun hfalse => ?_⟩
      rw [List.mem_map] at h
      obtain ⟨t, _, heq⟩ := h
      rw [← heq] at hfalse
      simp [toRealtimeEntry] at hfalse
    · refine ⟨fun htrue => ?_, fun _ => h⟩
      rw [List.mem_map] at h
      obtain ⟨s, _, heq⟩ := h
      rw [← heq] at htrue
      simp [scheduledToEntry] at htrue

/-- C10 witness: the flag facts at concrete synthetic, extracted and merged
inputs, with the membership hypotheses discharged concretely. -/
theorem realtime_flag_partition_witness :
    (NormalizedArrival.mk "1_0" "1" none "Van Cortlandt Park" 1120 60 true
      false "#EE352E" "0 10").isRealtime = true ∧
    (NormalizedArrival.mk "T..PBP" "6" (some "NORTH") "Pelham Bay Park" 500 0
      true false "#00933C" "T..PBP").isRealtime = true ∧
    toRealtimeEntry (fun _ => none)
      ⟨"t1", "1", some "NORTH", "South Ferry", 500, 0, true, true, "#EE352E", "t1"⟩ ∈
      ([⟨"t1", "1", some "NORTH", "South Ferry", 500, 0, true, true, "#EE352E",
        "t1"⟩] : List NormalizedArrival).map (toRealtimeEntry (fun _ => none)) ∧
    scheduledToEntry ⟨"s1", "2", "Wakefield", 900, "#EE352E"⟩ ∈
      ([⟨"s1", "2", "Wakefield", 900, "#EE352E"⟩] :
        List ScheduledDeparture).map scheduledToEntry := by
  refine ⟨?_, ?_, ?_, ?_⟩
  · exact realtime_flag_partition.1 (fun _ => 0) 1000
      ⟨"127", "Station127", ["1", "2", "3"]⟩ _ (by decide)
  · exact realtime_flag_partition.2.1
      [⟨⟨400⟩, [⟨some ⟨some ⟨"T..PBP", "6", none⟩, [⟨"635N", some ⟨500, 0⟩⟩]⟩⟩]⟩]
      "635" 100 _ (by decide)
  · exact (realtime_flag_partition.2.2 (fun _ => none)
      [⟨"t1", "1", some "NORTH", "South Ferry", 500, 0, true, true, "#EE352E", "t1"⟩]
      [⟨"s1", "2", "Wakefield", 900, "#EE352E"⟩] 0 _ (by decide)).1 rfl
  · exact (realtime_flag_partition.2.2 (fun _ => none)
      [⟨"t1", "1", some "NORTH", "South Ferry", 500, 0, true, true, "#EE352E", "t1"⟩]
      [⟨"s1", "2", "Wakefield", 900, "#EE352E"⟩] 0 _ (by decide)).2 rfl
